import Mathlib

/-!
Verification of the SQL validation pipeline in `sql_validation.py`
(`class SQLValidator`).

The validator parses SQL with the external `sqlglot` library, walks the
resulting tree, checks identifier references against a schema catalog
reflected from the SQLite store via SQLAlchemy, and finally performs a trial
execution against that store.  The shallow embedding below mirrors the
source:

* `Exp` models the `sqlglot` expression tree as observed by the validator:
  the node classes the code tests for (`Select`, `Column`, `Table`, `Alias`,
  `CTE`, the DDL/DML classes) are constructors; every other node class is
  `Exp.other` with a descriptive tag the validator never inspects.  A
  `Select` node keeps its projection list (`select_node.expressions`)
  separate from its remaining children (FROM/WHERE/GROUP BY/WITH …).
* `ParseOutcome` models the three observable outcomes of
  `sqlglot.parse(sql, dialect='sqlite')` inside the `try`: an exception
  (`raised`), a falsy result (`empty`), or a parsed statement list whose
  first element the code uses (`ok ast`).  Both `safety_check` and
  `semantic_check` parse the same string, so they see the same outcome.
* Python `set`s are modelled as `List String` up to membership; messages
  built with f-strings are modelled by the structured type `Msg`, each
  constructor standing for one literal format string of the source and
  carrying exactly the data interpolated into it.
* The SQLite/SQLAlchemy store is external to the source; it is modelled as
  a state `DBState` (tables with their columns) together with an execution
  function `String → DBState → Except String DBState` supplied as a
  parameter.  `with engine.begin()` commits the transaction when the block
  exits normally and rolls it back when the block raises, which is how
  `execution_check` is embedded.
-/

/-- The `sqlglot` expression tree as seen by `SQLValidator`.  `column`
carries the referenced name (`column.name`) and the table qualifier the
code never reads; `aliasNode` is `exp.Alias` (`this`, `alias`); `cteNode`
is `exp.CTE` (`this`, `alias`); `withNode` is the `WITH` clause holding the
CTEs; the eight DDL/DML constructors are the classes listed in
`safety_check`; `other` covers every remaining node class (functions,
operators, literals, subqueries, …) with children. -/
inductive Exp where
  | select (projections : List Exp) (rest : List Exp)
  | column (name : String) (tbl : String)
  | table (name : String)
  | aliasNode (inner : Exp) (aliasName : String)
  | cteNode (inner : Exp) (aliasName : String)
  | withNode (ctes : List Exp)
  | dropNode (args : List Exp)
  | createNode (args : List Exp)
  | alterNode (args : List Exp)
  | truncNode (args : List Exp)
  | renameNode (args : List Exp)
  | deleteNode (args : List Exp)
  | insertNode (args : List Exp)
  | updateNode (args : List Exp)
  | other (tag : String) (args : List Exp)

/-- The `Expression.alias` text of a node: the alias of an `exp.Alias` or
`exp.CTE`, and `""` for every node without an `alias` arg (in particular a
bare `exp.Column` produced by the parser never carries one — `a AS total`
parses to an `Alias` wrapping the column). -/
def aliasOf : Exp → String
  | .aliasNode _ a => a
  | .cteNode _ a => a
  | _ => ""

/-- The `name` text of a `Column` or `Table` node (`""` elsewhere). -/
def colName : Exp → String
  | .column n _ => n
  | .table n => n
  | _ => ""

/-- The `this` argument of an `exp.CTE`: its inner select. -/
def cteInner : Exp → Exp
  | .cteNode inner _ => inner
  | e => e

/-- Whether `isinstance(node, sqlglot.exp.Select)` holds. -/
def isSelectRoot : Exp → Bool
  | .select _ _ => true
  | _ => false

/-- Whether the node is an `exp.CTE`. -/
def isCte : Exp → Bool
  | .cteNode _ _ => true
  | _ => false

/-- Whether the node is an `exp.Table`. -/
def isTableNode : Exp → Bool
  | .table _ => true
  | _ => false

/-- The `__name__` of the node's class when it is one of the eight classes
`safety_check` denies, `none` otherwise. -/
def blockedTag : Exp → Option String
  | .dropNode _ => some "Drop"
  | .createNode _ => some "Create"
  | .alterNode _ => some "Alter"
  | .truncNode _ => some "Truncate"
  | .renameNode _ => some "Rename"
  | .deleteNode _ => some "Delete"
  | .insertNode _ => some "Insert"
  | .updateNode _ => some "Update"
  | _ => none

mutual
/-- Every node of the tree, the node itself included — the domain of
`sqlglot`'s `find` / `find_all` traversal. -/
def allNodes : Exp → List Exp
  | e@(.select ps rs) => e :: (allNodesL ps ++ allNodesL rs)
  | e@(.column _ _) => [e]
  | e@(.table _) => [e]
  | e@(.aliasNode inner _) => e :: allNodes inner
  | e@(.cteNode inner _) => e :: allNodes inner
  | e@(.withNode cs) => e :: allNodesL cs
  | e@(.dropNode args) => e :: allNodesL args
  | e@(.createNode args) => e :: allNodesL args
  | e@(.alterNode args) => e :: allNodesL args
  | e@(.truncNode args) => e :: allNodesL args
  | e@(.renameNode args) => e :: allNodesL args
  | e@(.deleteNode args) => e :: allNodesL args
  | e@(.insertNode args) => e :: allNodesL args
  | e@(.updateNode args) => e :: allNodesL args
  | e@(.other _ args) => e :: allNodesL args

/-- `allNodes` over a list of siblings. -/
def allNodesL : List Exp → List Exp
  | [] => []
  | e :: es => allNodes e ++ allNodesL es
end

mutual
/-- Every `Column` node of the tree paired with the answer `sqlglot`'s
`column.find_ancestor(exp.Alias)` would give for it: the flag is set once
the traversal passes through an `Alias` node and stays set below it. -/
def colOccs : Exp → Bool → List (Exp × Bool)
  | e@(.column _ _), u => [(e, u)]
  | .select ps rs, u => colOccsL ps u ++ colOccsL rs u
  | .table _, _ => []
  | .aliasNode inner _, _ => colOccs inner true
  | .cteNode inner _, u => colOccs inner u
  | .withNode cs, u => colOccsL cs u
  | .dropNode args, u => colOccsL args u
  | .createNode args, u => colOccsL args u
  | .alterNode args, u => colOccsL args u
  | .truncNode args, u => colOccsL args u
  | .renameNode args, u => colOccsL args u
  | .deleteNode args, u => colOccsL args u
  | .insertNode args, u => colOccsL args u
  | .updateNode args, u => colOccsL args u
  | .other _ args, u => colOccsL args u

/-- `colOccs` over a list of siblings. -/
def colOccsL : List Exp → Bool → List (Exp × Bool)
  | [], _ => []
  | e :: es, u => colOccs e u ++ colOccsL es u
end

/-- Python's `x in s` membership test on a set of names (sets are modelled
as lists up to membership). -/
def memStr (a : String) (l : List String) : Bool :=
  l.any (fun x => x == a)

/-- Python set difference `a - b` on name sets. -/
def setMinus (a b : List String) : List String :=
  a.filter (fun x => !(memStr x b))

/-- Whether `needle` is an initial segment of `hay` (character lists). -/
def startsWithL : List Char → List Char → Bool
  | [], _ => true
  | _ :: _, [] => false
  | a :: as, b :: bs => a == b && startsWithL as bs

/-- Python's substring test `needle in hay` on character lists. -/
def containsL (needle : List Char) : List Char → Bool
  | [] => needle.isEmpty
  | c :: rest => startsWithL needle (c :: rest) || containsL needle rest

/-- Python's `str.upper()` (the keywords involved are ASCII, where the two
agree). -/
def upperStr (s : String) : String := ⟨s.data.map Char.toUpper⟩

/-- Python's `needle in hay` on strings. -/
def containsStr (hay needle : String) : Bool :=
  containsL needle.data hay.data

/-- The observable outcome of `sqlglot.parse(sql, dialect='sqlite')` inside
the `try` of `safety_check` / `semantic_check`: the call raised, returned a
falsy (empty) result, or returned a list whose first statement is `ast`.
Parsing is deterministic, so the two checks of one `validate` call see the
same outcome for the same string. -/
inductive ParseOutcome where
  | raised
  | empty
  | ok (ast : Exp)

/-- The messages of `SQLValidator`, one constructor per literal format
string of the source, carrying the interpolated data. -/
inductive Msg where
  | parseEmptyErr
  | blockedOp (kindName : String)
  | notSelect
  | safeSelect
  | kwDetected
  | kwPassed
  | semParseErr
  | semErr
  | missingTablesMsg (ts : List String)
  | missingColumnsMsg (cs : List String)
  | schemaValid
  | executedOk
  | runtimeErr (e : String)
  | stageFailed (stage : String) (m : Msg)
  | allPassed
deriving DecidableEq

/-- `harmful_keywords` of the lexical fallback (source line 43). -/
def harmfulKeywords : List String :=
  ["DROP", "DELETE", "INSERT", "UPDATE", "CREATE", "ALTER"]

/-- The class names of `ddl_nodes + dml_nodes` in the order the source
loops over them (source lines 29–33). -/
def blockedNames : List String :=
  ["Drop", "Create", "Alter", "Truncate", "Rename", "Delete", "Insert", "Update"]

/-- Whether `parsed_ast.find(node_type)` finds a node of the class named
`nm` anywhere in the tree (the root included). -/
def hasBlocked (nm : String) (ast : Exp) : Bool :=
  (allNodes ast).any (fun e => blockedTag e == some nm)

/-- Embeds `SQLValidator.safety_check` (source lines 20–46): on a parsed
statement, deny the first DDL/DML class found anywhere in the tree, then
require the root to be a `Select`; when parsing raised, fall back to the
case-insensitive keyword scan of the raw text. -/
def safety_check (sql : String) (pout : ParseOutcome) : Bool × Msg :=
  match pout with
  | .empty => (false, .parseEmptyErr)
  | .ok ast =>
    match blockedNames.find? (fun nm => hasBlocked nm ast) with
    | some nm => (false, .blockedOp nm)
    | none =>
      if isSelectRoot ast then (true, .safeSelect)
      else (false, .notSelect)
  | .raised =>
    if harmfulKeywords.any (fun kw => containsStr (upperStr sql) kw) then
      (false, .kwDetected)
    else (true, .kwPassed)

/-- Embeds `SQLValidator._collect_aliases_from_select`: the nonempty
aliases of the projection expressions of a `Select` node (`[]` on any other
node). -/
def collectAliasesFromSelect : Exp → List String
  | .select ps _ => ps.filterMap (fun e => if aliasOf e == "" then none else some (aliasOf e))
  | _ => []

/-- `all_select_aliases`: aliases collected from every `Select` node in the
tree, subqueries and CTE bodies included (source lines 78–80). -/
def selectAliases (ast : Exp) : List String :=
  ((allNodes ast).filter isSelectRoot).flatMap collectAliasesFromSelect

/-- `cte_names`: the alias of every `exp.CTE` node that has one (source
lines 67–72). -/
def cteNames (ast : Exp) : List String :=
  ((allNodes ast).filter isCte).filterMap
    (fun e => if aliasOf e == "" then none else some (aliasOf e))

/-- `cte_columns`: for every aliased CTE, the aliases of its inner select's
projections (source lines 73–75). -/
def cteColumns (ast : Exp) : List String :=
  ((allNodes ast).filter isCte).flatMap
    (fun e => if aliasOf e == "" then [] else collectAliasesFromSelect (cteInner e))

/-- `real_columns` (source lines 83–99): every `Column` occurrence is kept
unless its name is a select alias or CTE column, the column node itself
carries an alias (never the case for parser output, see `aliasOf`), or the
node has an `Alias` ancestor. -/
def realColumns (ast : Exp) : List String :=
  ((colOccs ast false).filter (fun p =>
      !(memStr (colName p.1) (selectAliases ast)) &&
      !(memStr (colName p.1) (cteColumns ast)) &&
      aliasOf p.1 == "" &&
      !p.2)).map (fun p => colName p.1)

/-- The names of all `exp.Table` nodes in the tree (source line 102). -/
def tableNames (ast : Exp) : List String :=
  ((allNodes ast).filter isTableNode).map colName

/-- `used_tables` after removing the CTE names (source line 103). -/
def usedTables (ast : Exp) : List String :=
  setMinus (tableNames ast) (cteNames ast)

/-- `missing_tables = used_tables - self.schema_tables` (source line 105). -/
def missingTables (ast : Exp) (schemaTables : List String) : List String :=
  setMinus (usedTables ast) schemaTables

/-- `missing_columns = real_columns - self.schema_columns` (source line 106). -/
def missingColumns (ast : Exp) (schemaColumns : List String) : List String :=
  setMinus (realColumns ast) schemaColumns

/-- Embeds `SQLValidator.semantic_check` (source lines 57–114) on the parse
outcome of the SQL string: `semErr` stands for the `except` branch's
`Semantic error: …` message (the parser's exception text is external). -/
def semantic_check (pout : ParseOutcome) (schemaTables schemaColumns : List String) :
    Bool × Msg :=
  match pout with
  | .raised => (false, .semErr)
  | .empty => (false, .semParseErr)
  | .ok ast =>
    let mt := missingTables ast schemaTables
    let mc := missingColumns ast schemaColumns
    if !mt.isEmpty then (false, .missingTablesMsg mt)
    else if !mc.isEmpty then (false, .missingColumnsMsg mc)
    else (true, .schemaValid)

/-- The persisted state of the SQLite store as far as the validator
observes it: the tables with their column names. -/
abbrev DBState := List (String × List String)

/-- The validator's reflected catalog fields `schema_tables` and
`schema_columns`. -/
structure Validator where
  schema_tables : List String
  schema_columns : List String

/-- The table names `MetaData.reflect` reports for a database state
(source line 16). -/
def reflectTables (db : DBState) : List String := db.map (fun t => t.1)

/-- The column names of all tables, flattened into one set (source lines
17–18). -/
def reflectColumns (db : DBState) : List String := db.flatMap (fun t => t.2)

/-- Embeds `SQLValidator._reflect_schema`: it assigns both catalog fields
from the reflected metadata, reading nothing from their prior values. -/
def reflectSchema (db : DBState) (_self : Validator) : Validator :=
  { schema_tables := reflectTables db, schema_columns := reflectColumns db }

/-- Embeds `SQLValidator.__init__` (source lines 6–11): `schema_tables` is
first set from `allowed_tables or []` (`none` models Python `None`), then
`_reflect_schema()` runs. -/
def initValidator (db : DBState) (allowed : Option (List String)) : Validator :=
  let v : Validator := { schema_tables := allowed.getD [], schema_columns := [] }
  reflectSchema db v

/-- Embeds `SQLValidator.execution_check` (source lines 116–122).  The
store's behavior is the parameter `exec'`.  `with engine.begin()` commits
the transaction when the block exits normally — the new state persists —
and rolls it back when execution raises, so the prior state is kept and the
exception text becomes the `Runtime error: …` message. -/
def execution_check (exec' : String → DBState → Except String DBState)
    (sql : String) (s : DBState) : (Bool × Msg) × DBState :=
  match exec' sql s with
  | .ok s2 => ((true, .executedOk), s2)
  | .error e => ((false, .runtimeErr e), s)

/-- The verdict loop at the end of `validate` (source lines 131–134): the
first failing stage's message, tagged with the stage name, else overall
success. -/
def firstFailure : List (String × (Bool × Msg)) → Bool × Msg
  | [] => (true, .allPassed)
  | (stage, (ok, m)) :: rest =>
    if ok then firstFailure rest else (false, .stageFailed stage m)

/-- Embeds `SQLValidator.validate` (source lines 124–134).  The `checks`
list literal is built eagerly, so all three checks run — in particular
`execution_check` runs against the store — before the loop picks the
verdict; the store state it leaves behind is returned alongside. -/
def validate (v : Validator) (exec' : String → DBState → Except String DBState)
    (sql : String) (pout : ParseOutcome) (s : DBState) : (Bool × Msg) × DBState :=
  let safetyRes := safety_check sql pout
  let semanticRes := semantic_check pout v.schema_tables v.schema_columns
  let execRes := execution_check exec' sql s
  (firstFailure [("Safety", safetyRes), ("Semantic", semanticRes), ("Execution", execRes.1)],
   execRes.2)

/-- The database used by the spec's example scenarios: one table
`readings` with columns `country` and `value`. -/
def readingsDb : DBState := [("readings", ["country", "value"])]

/-- A two-table database: column `x` lives on table `a` only, column `y`
on table `b` only. -/
def abDb : DBState := [("a", ["x"]), ("b", ["y"])]

/-- The SQL text of the example mutating statement. -/
def dropSql : String := "DROP TABLE readings"

/-- The SQL text of the example aggregate query. -/
def avgSql : String :=
  "SELECT country, AVG(value) AS avg_value FROM readings GROUP BY country"

/-- Behavior of the external SQLite store on the two concrete statements
this development executes against it: `DROP TABLE readings` removes the
table (an error if it is absent), and the example aggregate query succeeds
without changing state when `readings` exists.  Any other statement is not
modelled and reported as a runtime error. -/
def storeExec (sql : String) (s : DBState) : Except String DBState :=
  if sql == dropSql then
    if s.any (fun t => t.1 == "readings") then
      .ok (s.filter (fun t => !(t.1 == "readings")))
    else .error "no such table: readings"
  else if sql == avgSql then
    if s.any (fun t => t.1 == "readings") then .ok s
    else .error "no such table: readings"
  else .error "statement not modelled"

/-- The tree `sqlglot` produces for `DROP TABLE readings`: a `Drop` node
over the table. -/
def dropAst : Exp := .dropNode [.table "readings"]

/-- A read-only-looking wrapper with a mutating clause nested below the
root: a `Select` whose subquery position holds a `Drop`. -/
def nestedDropAst : Exp :=
  .select [.column "a" ""] [.other "Subquery" [.dropNode [.table "t"]]]

/-- A parseable statement that is neither DDL/DML nor a `Select` (for
example a `PRAGMA`, which `sqlglot` parses as a `Command`). -/
def commandAst : Exp := .other "Command" []

/-- The tree for `SELECT country FROM readings`. -/
def plainSelectAst : Exp := .select [.column "country" ""] [.table "readings"]

/-- The tree for `SELECT a AS total FROM t WHERE total > 0`: the
projection is an `Alias` over column `a`, and the `WHERE` clause reads
`total`. -/
def aliasWhereAst : Exp :=
  .select [.aliasNode (.column "a" "") "total"]
          [.table "t",
           .other "Where" [.other "GT" [.column "total" "", .other "Literal" []]]]

/-- The tree for `WITH c AS (SELECT x AS y FROM t) SELECT y FROM c`: the
`WITH` clause holds one CTE named `c` whose body aliases `x` as `y`; the
outer select reads `y` from the table reference `c`. -/
def cteAst : Exp :=
  .select [.column "y" ""]
          [.withNode [.cteNode (.select [.aliasNode (.column "x" "") "y"] [.table "t"]) "c"],
           .table "c"]

/-- The tree for `SELECT country, AVG(value) AS avg_value FROM readings
GROUP BY country`: the second projection is an `Alias` over the `AVG`
call, whose argument reads column `value`. -/
def avgAst : Exp :=
  .select [.column "country" "",
           .aliasNode (.other "Avg" [.column "value" ""]) "avg_value"]
          [.table "readings", .other "Group" [.column "country" ""]]

/-- The tree for `SELECT b.x FROM b`: column `x` referenced with table
qualifier `b`, although `x` is a column of table `a` in `abDb`. -/
def flattenAst : Exp := .select [.column "x" "b"] [.table "b"]

/-- The tree for the spec's example `SELECT bogus_col FROM readings`. -/
def bogusAst : Exp := .select [.column "bogus_col" ""] [.table "readings"]

theorem memStr_iff (a : String) (l : List String) : memStr a l = true ↔ a ∈ l := by
  simp [memStr, List.any_eq_true, beq_iff_eq]

theorem memStr_eq_false_iff (a : String) (l : List String) :
    memStr a l = false ↔ a ∉ l := by
  rw [← Bool.not_eq_true, not_iff_not, memStr_iff]

theorem mem_setMinus (x : String) (a b : List String) :
    x ∈ setMinus a b ↔ x ∈ a ∧ x ∉ b := by
  simp [setMinus, List.mem_filter, Bool.not_eq_true', memStr_eq_false_iff]

theorem startsWithL_iff (n h : List Char) :
    startsWithL n h = true ↔ ∃ post, h = n ++ post := by
  induction n generalizing h with
  | nil => simp [startsWithL]
  | cons a as ih =>
    cases h with
    | nil => simp [startsWithL]
    | cons b bs =>
      simp only [startsWithL, Bool.and_eq_true, beq_iff_eq, ih]
      constructor
      · rintro ⟨rfl, post, rfl⟩
        exact ⟨post, rfl⟩
      · rintro ⟨post, hp⟩
        injection hp with h1 h2
        exact ⟨h1.symm, post, h2⟩

theorem containsL_iff (n h : List Char) :
    containsL n h = true ↔ ∃ pre post, h = pre ++ n ++ post := by
  induction h with
  | nil =>
    simp only [containsL, List.isEmpty_iff]
    constructor
    · rintro rfl
      exact ⟨[], [], rfl⟩
    · rintro ⟨pre, post, hp⟩
      rcases List.append_eq_nil.mp (List.append_eq_nil.mp hp.symm).1 with ⟨-, h2⟩
      exact h2
  | cons c cs ih =>
    simp only [containsL, Bool.or_eq_true, startsWithL_iff, ih]
    constructor
    · rintro (⟨post, hp⟩ | ⟨pre, post, hp⟩)
      · exact ⟨[], post, by simpa using hp⟩
      · exact ⟨c :: pre, post, by simp [hp]⟩
    · rintro ⟨pre, post, hp⟩
      cases pre with
      | nil => exact Or.inl ⟨post, by simpa using hp⟩
      | cons d ds =>
        injection hp with h1 h2
        exact Or.inr ⟨ds, post, h2⟩

theorem realColumns_mem (ast : Exp) (n : String) (h : n ∈ realColumns ast) :
    ∃ p, p ∈ colOccs ast false ∧ colName p.1 = n ∧
      n ∉ selectAliases ast ∧ n ∉ cteColumns ast ∧
      aliasOf p.1 = "" ∧ p.2 = false := by
  unfold realColumns at h
  rcases List.mem_map.mp h with ⟨p, hp, rfl⟩
  rcases List.mem_filter.mp hp with ⟨hmem, hpred⟩
  simp only [Bool.and_eq_true, Bool.not_eq_true', beq_iff_eq] at hpred
  obtain ⟨⟨⟨h1, h2⟩, h3⟩, h4⟩ := hpred
  exact ⟨p, hmem, rfl, (memStr_eq_false_iff _ _).mp h1,
    (memStr_eq_false_iff _ _).mp h2, h3, h4⟩

/-- C1: the claim says that when the Safety check fails, the Semantic and
Execution checks are never performed and the query is never executed
against the store.  The code builds the `checks` list eagerly, so on
`DROP TABLE readings` the verdict is the Safety failure naming the Drop
operation, yet the store state after `validate` has lost the `readings`
table: the execution probe did run the statement and its effect persisted. -/
theorem validate_executes_despite_safety_failure :
    (validate (initValidator readingsDb none) storeExec dropSql (.ok dropAst) readingsDb).1
      = (false, .stageFailed "Safety" (.blockedOp "Drop")) ∧
    (validate (initValidator readingsDb none) storeExec dropSql (.ok dropAst) readingsDb).2
      = [] ∧
    readingsDb ≠ [] := by
  refine ⟨?_, ?_, ?_⟩ <;> decide

/-- C2: the claim says `execution_check` reverts its transaction on every
outcome, success as well as failure.  `with engine.begin()` commits on
normal exit: on `DROP TABLE readings` against a store holding `readings`,
execution succeeds and the resulting persisted state is empty — not
identical to the state before the call. -/
theorem execution_check_commits_on_success :
    (execution_check storeExec dropSql readingsDb).1.1 = true ∧
    (execution_check storeExec dropSql readingsDb).2 = [] ∧
    readingsDb ≠ [] := by
  refine ⟨?_, ?_, ?_⟩ <;> decide

/-- C9: `validate` is deterministic — a second call with the same SQL (and
hence the same parse outcome), the same catalog and an unchanged store
state returns the same verdict as the first. -/
theorem validate_deterministic (v : Validator)
    (exec' : String → DBState → Except String DBState) (sql : String)
    (pout : ParseOutcome) (s : DBState)
    (h : (validate v exec' sql pout s).2 = s) :
    (validate v exec' sql pout ((validate v exec' sql pout s).2)).1
      = (validate v exec' sql pout s).1 := by
  rw [h]

/-- Witness for C9: the example aggregate query leaves the store unchanged,
and re-validating it on the resulting state yields the same verdict. -/
theorem validate_deterministic_witness :
    (validate (initValidator readingsDb none) storeExec avgSql (.ok avgAst)
        ((validate (initValidator readingsDb none) storeExec avgSql (.ok avgAst)
            readingsDb).2)).1
      = (validate (initValidator readingsDb none) storeExec avgSql (.ok avgAst)
          readingsDb).1 :=
  validate_deterministic _ _ _ _ _ (by decide)

/-- C10: the `allowed_tables` constructor argument has no effect — after
`__init__`, `_reflect_schema` has overwritten `schema_tables` with exactly
the reflected table names (and `schema_columns` with the reflected column
names), so two validators built over the same database with different
`allowed_tables` arguments are equal and `validate` returns identical
verdicts. -/
theorem allowed_tables_no_effect (db : DBState) (a1 a2 : Option (List String))
    (exec' : String → DBState → Except String DBState) (sql : String)
    (pout : ParseOutcome) (s : DBState) :
    initValidator db a1 = initValidator db a2 ∧
    (initValidator db a1).schema_tables = reflectTables db ∧
    (initValidator db a1).schema_columns = reflectColumns db ∧
    validate (initValidator db a1) exec' sql pout s
      = validate (initValidator db a2) exec' sql pout s :=
  ⟨rfl, rfl, rfl, rfl⟩

/-- C3: on a successfully parsed statement, `safety_check` rejects whenever
a Drop/Create/Alter/Truncate/Rename/Delete/Insert/Update node occurs
anywhere in the tree, with a message naming an offending kind that is
present; with no such node it rejects a non-`Select` root as `Non-SELECT`;
otherwise it accepts with the `SELECT only` message. -/
theorem safety_check_blocks_ddl_dml (sql : String) (ast : Exp) :
    (∀ nm, nm ∈ blockedNames → hasBlocked nm ast = true →
      (safety_check sql (.ok ast)).1 = false ∧
      ∃ k, k ∈ blockedNames ∧ hasBlocked k ast = true ∧
        (safety_check sql (.ok ast)).2 = .blockedOp k)
  ∧ ((∀ nm, nm ∈ blockedNames → hasBlocked nm ast = false) → isSelectRoot ast = false →
      safety_check sql (.ok ast) = (false, .notSelect))
  ∧ ((∀ nm, nm ∈ blockedNames → hasBlocked nm ast = false) → isSelectRoot ast = true →
      safety_check sql (.ok ast) = (true, .safeSelect)) := by
  cases hfind : blockedNames.find? (fun nm => hasBlocked nm ast) with
  | none =>
    have hnone := List.find?_eq_none.mp hfind
    refine ⟨?_, ?_, ?_⟩
    · intro nm hmem hblk
      exact absurd hblk (hnone nm hmem)
    · intro _ hsel
      simp [safety_check, hfind, hsel]
    · intro _ hsel
      simp [safety_check, hfind, hsel]
  | some k =>
    have hk' := List.find?_some hfind
    have hk : hasBlocked k ast = true := hk'
    have hkmem : k ∈ blockedNames := List.mem_of_find?_eq_some hfind
    refine ⟨?_, ?_, ?_⟩
    · intro nm _ _
      exact ⟨by simp [safety_check, hfind], k, hkmem, hk, by simp [safety_check, hfind]⟩
    · intro hall _
      exact absurd hk (by simp [hall k hkmem])
    · intro hall _
      exact absurd hk (by simp [hall k hkmem])

/-- Witness for C3: a `Drop` nested below a read-only-looking `Select` root
is still rejected with a message naming it; a parseable non-`Select`
command is rejected as `Non-SELECT`; a plain `Select` is accepted. -/
theorem safety_check_blocks_ddl_dml_witness :
    ((safety_check "" (.ok nestedDropAst)).1 = false ∧
      ∃ k, k ∈ blockedNames ∧ hasBlocked k nestedDropAst = true ∧
        (safety_check "" (.ok nestedDropAst)).2 = .blockedOp k) ∧
    safety_check "" (.ok commandAst) = (false, .notSelect) ∧
    safety_check "" (.ok plainSelectAst) = (true, .safeSelect) :=
  ⟨(safety_check_blocks_ddl_dml "" nestedDropAst).1 "Drop" (by decide) (by decide),
   (safety_check_blocks_ddl_dml "" commandAst).2.1 (by decide) (by decide),
   (safety_check_blocks_ddl_dml "" plainSelectAst).2.2 (by decide) (by decide)⟩

/-- C4: when parsing raised, `safety_check` falls back to the lexical scan —
it returns `false` exactly when the upper-cased SQL text contains one of the
six keywords DROP, DELETE, INSERT, UPDATE, CREATE, ALTER as a substring
(with the `Harmful keyword` message), and otherwise provisionally accepts
with the `Keyword check passed` message. -/
theorem safety_check_fallback_keywords (sql : String) :
    ((safety_check sql .raised).1 = false ↔
      ∃ kw, kw ∈ harmfulKeywords ∧
        ∃ pre post, (upperStr sql).data = pre ++ kw.data ++ post)
  ∧ ((safety_check sql .raised).1 = false →
      safety_check sql .raised = (false, .kwDetected))
  ∧ ((safety_check sql .raised).1 = true →
      safety_check sql .raised = (true, .kwPassed)) := by
  cases h : harmfulKeywords.any (fun kw => containsStr (upperStr sql) kw) with
  | true =>
    have hres : safety_check sql .raised = (false, .kwDetected) := by
      simp [safety_check, h]
    rcases List.any_eq_true.mp h with ⟨kw, hkmem, hkc⟩
    rcases (containsL_iff kw.data (upperStr sql).data).mp hkc with ⟨pre, post, heq⟩
    rw [hres]
    exact ⟨⟨fun _ => ⟨kw, hkmem, pre, post, heq⟩, fun _ => rfl⟩,
           fun _ => rfl, fun hc => by simp at hc⟩
  | false =>
    have hres : safety_check sql .raised = (true, .kwPassed) := by
      simp [safety_check, h]
    have hnone := List.any_eq_false.mp h
    rw [hres]
    refine ⟨⟨fun hc => by simp at hc, ?_⟩, fun hc => by simp at hc, fun _ => rfl⟩
    rintro ⟨kw, hkmem, pre, post, heq⟩
    exact absurd ((containsL_iff kw.data (upperStr sql).data).mpr ⟨pre, post, heq⟩)
      (hnone kw hkmem)

/-- Witness for C4: on unparseable input, text containing DROP is rejected
by the fallback and text containing no harmful keyword is provisionally
accepted. -/
theorem safety_check_fallback_keywords_witness :
    safety_check "DROP TABLE readings;;" .raised = (false, .kwDetected) ∧
    safety_check "SHOW ME" .raised = (true, .kwPassed) :=
  ⟨(safety_check_fallback_keywords "DROP TABLE readings;;").2.1 (by decide),
   (safety_check_fallback_keywords "SHOW ME").2.2 (by decide)⟩

/-- C5: every name in `real_columns` is outside `select_aliases` and
outside `cte_columns` (aliases from nested subqueries included, since
`selectAliases` ranges over every `Select` in the tree); in particular for
`SELECT a AS total FROM t WHERE total > 0` the name `total` is never in
`missing_columns`, whatever the catalog's column set is. -/
theorem real_columns_disjoint_from_aliases (ast : Exp) (n : String)
    (cols : List String) (h : n ∈ realColumns ast) :
    (n ∉ selectAliases ast ∧ n ∉ cteColumns ast) ∧
    "total" ∉ missingColumns aliasWhereAst cols := by
  rcases realColumns_mem ast n h with ⟨p, -, -, hna, hnc, -, -⟩
  refine ⟨⟨hna, hnc⟩, fun hmem => ?_⟩
  exact absurd ((mem_setMinus _ _ _).mp hmem).1 (by decide)

/-- Witness for C5 at `SELECT country FROM readings`, whose `real_columns`
contains `country`. -/
theorem real_columns_disjoint_from_aliases_witness :
    (("country" ∉ selectAliases plainSelectAst ∧
      "country" ∉ cteColumns plainSelectAst) ∧
     "total" ∉ missingColumns aliasWhereAst []) :=
  real_columns_disjoint_from_aliases plainSelectAst "country" [] (by decide)

/-- C6: `used_tables` holds exactly the table reference names that are not
CTE names, and a CTE output column never survives into `real_columns`; for
`WITH c AS (SELECT x AS y FROM t) SELECT y FROM c`, the name `c` is never
in `missing_tables` and `y` is never in `missing_columns`, whatever the
catalog is. -/
theorem cte_exclusion (ast : Exp) (n : String) (tabs cols : List String) :
    (n ∈ usedTables ast ↔ n ∈ tableNames ast ∧ n ∉ cteNames ast)
  ∧ (n ∈ cteColumns ast → n ∉ realColumns ast)
  ∧ ("c" ∉ missingTables cteAst tabs ∧ "y" ∉ missingColumns cteAst cols) := by
  refine ⟨mem_setMinus n _ _, fun hc hr => ?_, fun hmem => ?_, fun hmem => ?_⟩
  · rcases realColumns_mem ast n hr with ⟨p, -, -, -, hnc, -, -⟩
    exact hnc hc
  · exact absurd ((mem_setMinus _ _ _).mp hmem).1 (by decide)
  · exact absurd ((mem_setMinus _ _ _).mp hmem).1 (by decide)

/-- Witness for C6 at the CTE example tree: `y` is a CTE column and indeed
not a real column, and with catalog tables `{t}` and no columns, neither
`c` nor `y` is reported missing. -/
theorem cte_exclusion_witness :
    "y" ∉ realColumns cteAst ∧
    ("c" ∉ missingTables cteAst ["t"] ∧ "y" ∉ missingColumns cteAst []) :=
  ⟨(cte_exclusion cteAst "y" ["t"] []).2.1 (by decide),
   (cte_exclusion cteAst "y" ["t"] []).2.2⟩

/-- C7 counterexample: the claim says a column read inside an aliased
projection — `value` in `AVG(value) AS avg_value` — is still collected
into `real_columns` and checked against the catalog.  In the code,
`column.find_ancestor(exp.Alias)` holds for that read, so `value` is NOT
in `real_columns`, and the query passes `semantic_check` even against a
catalog whose column set lacks `value`. -/
theorem alias_descendant_read_not_collected :
    "value" ∉ realColumns avgAst ∧
    (semantic_check (.ok avgAst) ["readings"] ["country"]).1 = true := by
  refine ⟨?_, ?_⟩ <;> decide

/-- C7 (amended): the descendant-of-an-alias exclusion removes every column
occurrence lying anywhere inside an alias definition, reads inside the
aliased expression included — each name in `real_columns` stems from an
occurrence with no `Alias` ancestor; in the example, `value` is excluded
while the plain read `country` is kept. -/
theorem alias_descendant_excluded (ast : Exp) (n : String)
    (h : n ∈ realColumns ast) :
    (∃ p, p ∈ colOccs ast false ∧ colName p.1 = n ∧ p.2 = false) ∧
    ("value" ∉ realColumns avgAst ∧ "country" ∈ realColumns avgAst) := by
  rcases realColumns_mem ast n h with ⟨p, hp, hn, -, -, -, hfl⟩
  exact ⟨⟨p, hp, hn, hfl⟩, by decide, by decide⟩

/-- Witness for C7's amended statement at the aggregate example tree. -/
theorem alias_descendant_excluded_witness :
    (∃ p, p ∈ colOccs avgAst false ∧ colName p.1 = "country" ∧ p.2 = false) ∧
    ("value" ∉ realColumns avgAst ∧ "country" ∈ realColumns avgAst) :=
  alias_descendant_excluded avgAst "country" (by decide)

/-- C8: `semantic_check` accepts exactly when both missing sets are empty,
and on rejection its message enumerates the missing names (tables first);
because the catalog's column set is flattened across tables, `SELECT b.x
FROM b` is accepted against `abDb` although `x` is a column of table `a`,
not of `b`. -/
theorem semantic_check_accepts_iff (ast : Exp) (tabs cols : List String) :
    ((semantic_check (.ok ast) tabs cols).1 = true ↔
      missingTables ast tabs = [] ∧ missingColumns ast cols = [])
  ∧ (missingTables ast tabs ≠ [] →
      semantic_check (.ok ast) tabs cols
        = (false, .missingTablesMsg (missingTables ast tabs)))
  ∧ (missingTables ast tabs = [] → missingColumns ast cols ≠ [] →
      semantic_check (.ok ast) tabs cols
        = (false, .missingColumnsMsg (missingColumns ast cols)))
  ∧ (semantic_check (.ok flattenAst) (reflectTables abDb) (reflectColumns abDb)).1
      = true := by
  have hflat : (semantic_check (.ok flattenAst) (reflectTables abDb)
      (reflectColumns abDb)).1 = true := by decide
  cases hmt : (missingTables ast tabs).isEmpty with
  | false =>
    have hne : missingTables ast tabs ≠ [] := by
      intro he
      rw [he] at hmt
      exact absurd hmt (by decide)
    have hres : semantic_check (.ok ast) tabs cols
        = (false, .missingTablesMsg (missingTables ast tabs)) := by
      simp [semantic_check, hmt]
    rw [hres]
    exact ⟨⟨fun hc => absurd hc Bool.false_ne_true, fun hcon => absurd hcon.1 hne⟩,
           fun _ => rfl, fun he _ => absurd he hne, hflat⟩
  | true =>
    have hmteq : missingTables ast tabs = [] := by
      cases h : missingTables ast tabs with
      | nil => rfl
      | cons a l =>
        rw [h] at hmt
        simp at hmt
    cases hmc : (missingColumns ast cols).isEmpty with
    | false =>
      have hnec : missingColumns ast cols ≠ [] := by
        intro he
        rw [he] at hmc
        exact absurd hmc (by decide)
      have hres : semantic_check (.ok ast) tabs cols
          = (false, .missingColumnsMsg (missingColumns ast cols)) := by
        simp [semantic_check, hmt, hmc]
      rw [hres]
      exact ⟨⟨fun hc => absurd hc Bool.false_ne_true, fun hcon => absurd hcon.2 hnec⟩,
             fun habs => absurd hmteq habs, fun _ _ => rfl, hflat⟩
    | true =>
      have hmceq : missingColumns ast cols = [] := by
        cases h : missingColumns ast cols with
        | nil => rfl
        | cons a l =>
          rw [h] at hmc
          simp at hmc
      have hres : semantic_check (.ok ast) tabs cols = (true, .schemaValid) := by
        simp [semantic_check, hmt, hmc]
      rw [hres]
      exact ⟨⟨fun _ => ⟨hmteq, hmceq⟩, fun _ => rfl⟩,
             fun habs => absurd hmteq habs, fun _ habs => absurd hmceq habs, hflat⟩

/-- Witness for C8: a query over an unknown table is rejected enumerating
the missing tables, and the spec's `SELECT bogus_col FROM readings` example
is rejected enumerating the missing columns. -/
theorem semantic_check_accepts_iff_witness :
    semantic_check (.ok plainSelectAst) [] ["country", "value"]
      = (false, .missingTablesMsg (missingTables plainSelectAst [])) ∧
    semantic_check (.ok bogusAst) ["readings"] ["country", "value"]
      = (false, .missingColumnsMsg (missingColumns bogusAst ["country", "value"])) :=
  ⟨(semantic_check_accepts_iff plainSelectAst [] ["country", "value"]).2.1 (by decide),
   (semantic_check_accepts_iff bogusAst ["readings"] ["country", "value"]).2.2.1
     (by decide) (by decide)⟩
